import Mathlib

/-!
Shallow embedding of the SignalProcessing stream-block runtime and its block
algorithms (FIR, median filter, moving average, state-space / transfer-function
/ ZPK simulators, FFT core), translated from the Rust sources under
`filters/src`, `lti/src` and `transform/src`.

Conventions of the embedding:
* `f64` sample values are modelled as `ℚ` (every finite `f64` is a rational;
  arithmetic is idealised as exact).  The FFT twiddle factors involve
  `cos`/`sin` of real angles, so the FFT instance is stated over `ℂ`.
* Rust panics (out-of-bounds indexing, `usize` underflow, `Vec::remove` on an
  empty vector, division by a zero count is kept as field division) are
  modelled by `Option`: a `none` result marks an execution that panics.
* The lifecycle cell, `is_initialized`, the statics store and the port
  connectors live in crates that are not part of the sources
  (`data_model`, `processor_engine`, `utils`); they are modelled from the
  spec where needed.  Ports are modelled by passing the received input block
  as an argument and returning the emitted output block.
-/

namespace SignalProc

/-- Lifecycle states of a stream block (spec section 3, `StreamingState`). -/
inductive StreamingState where
  | Null
  | Initial
  | Running
  | Stopped
deriving DecidableEq, Repr

/-- Unified error kind set (spec section 7, `StreamingError`). -/
inductive StreamingError where
  | InvalidStateTransition
  | InvalidStatics
  | InvalidInput
  | ChannelClosed
deriving DecidableEq, Repr

/-- Bounds-checked list access at a signed index: Rust `usize` arithmetic that
underflows, or an index beyond the length, panics; both are `none` here. -/
def intGet (l : List ℚ) (i : ℤ) : Option ℚ :=
  if i < 0 then none else l.get? i.toNat

/-! ## FIR filter block (`filters/src/fir.rs`) -/

/-- The `Fir` block: lifecycle cell, the `is_initialized` flag (modelled from
the spec: true iff all statics have been assigned type-consistent values),
the two statics `order` and `coefficient`, and the state slot
`inputs_memory`. -/
structure Fir where
  procState : StreamingState
  initialized : Bool
  order : ℕ
  coefficient : List ℚ
  inputsMemory : List ℚ
deriving DecidableEq, Repr

/-- `Fir::init`: refuse from `Running`, refuse when not initialised, check
`coefficient.len() == order + 1`, zero the history and enter `Initial`. -/
def Fir.init (b : Fir) : Except StreamingError Fir :=
  if b.procState = StreamingState.Running then
    Except.error StreamingError.InvalidStateTransition
  else if !b.initialized then
    Except.error StreamingError.InvalidStatics
  else if b.coefficient.length ≠ b.order + 1 then
    Except.error StreamingError.InvalidStatics
  else
    Except.ok { b with
      inputsMemory := List.replicate b.order 0
      procState := StreamingState.Initial }

/-- Guard of `Fir::run` up to entering the processing loop: `ok` means the
block set `Running` and entered `while !Stopped { process() }` (the loop
itself consumes the ports and is not modelled). -/
def Fir.run (b : Fir) : Fir × Except StreamingError Unit :=
  if b.procState = StreamingState.Stopped then
    (b, Except.error StreamingError.InvalidStateTransition)
  else if !b.initialized then
    (b, Except.error StreamingError.InvalidStatics)
  else
    ({ b with procState := StreamingState.Running }, Except.ok ())

/-- Inner loop of one FIR output sample: `for index in 1..order` accumulating
`coefficient[index] * input_memory[order - k]`, where `order - k` is `usize`
subtraction (underflow panics). -/
def Fir.innerSum (c mem : List ℚ) (order k : ℕ) : Option ℚ :=
  (List.range' 1 (order - 1)).foldlM
    (fun acc index => do
      let ci ← c.get? index
      let m ← intGet mem ((order : ℤ) - (k : ℤ))
      pure (acc + ci * m))
    0

/-- Sample loop of `Fir::process`: `k` is the index of the current sample in
the received block; after each sample the history drops its oldest entry
(`Vec::remove(0)`, panicking when empty) and pushes the sample. -/
def Fir.loop (c : List ℚ) (order : ℕ) : List ℚ → List ℚ → ℕ → Option (List ℚ × List ℚ)
  | [], mem, _ => some ([], mem)
  | x :: rest, mem, k => do
    let c0 ← c.get? 0
    let s ← Fir.innerSum c mem order k
    let y := c0 * x + s
    match mem with
    | [] => none
    | _ :: memTail => do
      let (ys, memFinal) ← Fir.loop c order rest (memTail ++ [x]) (k + 1)
      pure (y :: ys, memFinal)

/-- `Fir::process` on one received input block: returns the updated block and
the emitted output block, or `none` when the kernel panics. -/
def Fir.process (b : Fir) (input : List ℚ) : Option (Fir × List ℚ) := do
  let (output, memFinal) ← Fir.loop b.coefficient b.order input b.inputsMemory 0
  pure ({ b with inputsMemory := memFinal }, output)

/-! ## Median filter block (`filters/src/median_filter.rs`) -/

/-- The `MedianFilter` block: it declares no state slots; its only static is
`order`. -/
structure MedianFilter where
  procState : StreamingState
  initialized : Bool
  order : ℕ
deriving DecidableEq, Repr

/-- One sample of `MedianFilter::process`: push the sample into the window,
drop the oldest entry when the window exceeds `order`, sort a copy and take
the median (middle element when odd, mean of the two middles when even; the
even branch indexes `sorted[mid - 1]`, which panics on an empty window). -/
def MedianFilter.step (order : ℕ) (window : List ℚ) (x : ℚ) : Option (ℚ × List ℚ) :=
  let w1 := window ++ [x]
  let w2 := if order < w1.length then w1.tail else w1
  let sorted := w2.mergeSort (fun a b => a ≤ b)
  if sorted.length % 2 = 1 then
    (sorted.get? (sorted.length / 2)).map (fun m => (m, w2))
  else do
    let lo ← intGet sorted ((sorted.length / 2 : ℤ) - 1)
    let hi ← sorted.get? (sorted.length / 2)
    pure ((lo + hi) / 2, w2)

/-- Sample iteration of `MedianFilter::process` over the received block,
threading the sliding window, which starts empty on every call. -/
def MedianFilter.loop (order : ℕ) : List ℚ → List ℚ → Option (List ℚ)
  | _, [] => some []
  | window, x :: rest => do
    let (m, w2) ← MedianFilter.step order window x
    let ys ← MedianFilter.loop order w2 rest
    pure (m :: ys)

/-- `MedianFilter::process` on one received input block: the window is a local
of the call (`Vec::with_capacity(order)`), so the block record is returned
unchanged. -/
def MedianFilter.process (b : MedianFilter) (input : List ℚ) :
    Option (MedianFilter × List ℚ) :=
  (MedianFilter.loop b.order [] input).map (fun out => (b, out))

/-! ## Moving-average block (`filters/src/moving_average.rs`) -/

/-- The `MovingAverage` block: no state slots, single static `order`. -/
structure MovingAverage where
  procState : StreamingState
  initialized : Bool
  order : ℕ
deriving DecidableEq, Repr

/-- Warm-up loop of `MovingAverage::process`: `for k in 0..half_order`
accumulating `input_signal[k]` into the running sum and count. -/
def MovingAverage.pre (input : List ℚ) (half : ℕ) : Option (ℚ × ℕ) :=
  (List.range half).foldlM
    (fun sc k => do
      let v ← input.get? k
      pure (sc.1 + v, sc.2 + 1))
    (0, 0)

/-- One iteration of the main loop of `MovingAverage::process` at sample `k`:
push `value_sum / count`, then grow the window while `k < order`, shrink it
past `len - half_order - 1` (that subtraction underflows in `usize` when
`len < half_order + 1`, as does `count -= 1` at zero), and otherwise slide
it. -/
def MovingAverage.step (input : List ℚ) (order half : ℕ) (st : ℚ × ℕ × List ℚ)
    (k : ℕ) : Option (ℚ × ℕ × List ℚ) :=
  let sum := st.1
  let count := st.2.1
  let out := st.2.2 ++ [sum / (count : ℚ)]
  if k < order then do
    let v ← input.get? (k + half)
    pure (sum + v, count + 1, out)
  else if input.length < half + 1 then
    none
  else if input.length - half - 1 < k then do
    let v ← intGet input ((k : ℤ) - (half : ℤ) - 1)
    if count = 0 then none else pure (sum - v, count - 1, out)
  else do
    let v1 ← input.get? (k + half)
    let v2 ← intGet input ((k : ℤ) - (half : ℤ) - 1)
    pure (sum + v1 - v2, count, out)

/-- `MovingAverage::process` on one received input block. -/
def MovingAverage.process (b : MovingAverage) (input : List ℚ) :
    Option (MovingAverage × List ℚ) := do
  let sc ← MovingAverage.pre input (b.order / 2)
  let res ← (List.range input.length).foldlM
    (MovingAverage.step input b.order (b.order / 2)) (sc.1, sc.2, [])
  pure (b, res.2.2)

/-! ## Matrices and the shared state-space engine (`lti/src/state_space.rs`) -/

/-- Modelled from the spec: the general matrix library (`utils::math::matrix`)
is an external collaborator ("general matrix/complex-number math library
(assumed available)").  A matrix is a row-count, a column-count and row-major
data; `entry` reads a coefficient (0 outside the stored data). -/
structure Matrix where
  rows : ℕ
  cols : ℕ
  data : List (List ℚ)
deriving DecidableEq, Repr

/-- Modelled from the spec: `Matrix::new(r, c)`, a zero-filled `r × c`
matrix (every slot has a default value). -/
def Matrix.new (r c : ℕ) : Matrix :=
  ⟨r, c, List.replicate r (List.replicate c 0)⟩

/-- Modelled from the spec: `Matrix::zero(r, c)`. -/
def Matrix.zero (r c : ℕ) : Matrix :=
  ⟨r, c, List.replicate r (List.replicate c 0)⟩

/-- Coefficient at row `i`, column `j`. -/
def Matrix.entry (m : Matrix) (i j : ℕ) : ℚ :=
  ((m.data.getD i []).getD j 0)

/-- Modelled from the spec: `Matrix::set(i, j, v).unwrap()`; every call site in
the sources is in bounds, where `List.set` is an exact model. -/
def Matrix.set (m : Matrix) (i j : ℕ) (v : ℚ) : Matrix :=
  { m with data := m.data.set i ((m.data.getD i []).set j v) }

/-- Modelled from the spec: `Matrix::from_vec`, wrapping row-major data. -/
def Matrix.from_vec (v : List (List ℚ)) : Matrix :=
  ⟨v.length, (v.headD []).length, v⟩

/-- Modelled from the spec: `Matrix::to_vec`, the row-major data. -/
def Matrix.to_vec (m : Matrix) : List (List ℚ) :=
  m.data

/-- Modelled from the spec: matrix product (rows of the left by columns of the
right). -/
def Matrix.mul (a b : Matrix) : Matrix :=
  ⟨a.rows, b.cols,
    (List.range a.rows).map (fun i =>
      (List.range b.cols).map (fun j =>
        ((List.range a.cols).map (fun k => a.entry i k * b.entry k j)).sum))⟩

/-- Modelled from the spec: entrywise matrix sum. -/
def Matrix.add (a b : Matrix) : Matrix :=
  ⟨a.rows, a.cols,
    (List.range a.rows).map (fun i =>
      (List.range a.cols).map (fun j => a.entry i j + b.entry i j))⟩

/-- The reusable state-space engine `(A, B, C, D, x)`. -/
structure StateSpace where
  A : Matrix
  B : Matrix
  C : Matrix
  D : Matrix
  x : Matrix
deriving DecidableEq, Repr

/-- `StateSpace::new`. -/
def StateSpace.new (A B C D x0 : Matrix) : StateSpace :=
  ⟨A, B, C, D, x0⟩

/-- `StateSpace::from_tf`: controllable canonical form of size
`n = den.len() - 1`; `C = [0,…,0,1]`; `D = num[0]/den[0]` iff the lengths
agree; the companion last row of `A` holds `-den[k+1]/den[0]`; `B` holds
`num[k]/den[0]` for `k ≥ 1`.  All index accesses are in bounds for `n ≥ 1`
(`n = 0` would make `C.set(n-1, …)` underflow and panic in the source; no
claim exercises it). -/
def StateSpace.from_tf (num den x0 : List ℚ) : StateSpace :=
  let n := den.length - 1
  let C := (Matrix.zero 1 n).set (n - 1) 0 1
  let D := if num.length = den.length then
      (Matrix.zero 1 1).set 0 0 (num.getD 0 0 / den.getD 0 0)
    else Matrix.zero 1 1
  let A := (List.range n).foldl
    (fun M k =>
      (if k < n - 1 then M.set k (k + 1) 1 else M).set (n - 1) k
        (-(den.getD (k + 1) 0) / den.getD 0 0))
    (Matrix.zero n n)
  let B := (List.range' 1 (num.length - 1)).foldl
    (fun M k => M.set (k - 1) 0 (num.getD k 0 / den.getD 0 0))
    (Matrix.zero n 1)
  ⟨A, B, C, D, Matrix.from_vec (x0.map (fun v => [v]))⟩

/-- `StateSpace::update`: `x ← A·x + B·u`, then `y = C·x + D·u` on the new
state; returns the mutated engine and the output. -/
def StateSpace.update (ss : StateSpace) (u : Matrix) : StateSpace × Matrix :=
  let xNew := (ss.A.mul ss.x).add (ss.B.mul u)
  ({ ss with x := xNew }, (ss.C.mul xNew).add (ss.D.mul u))

/-- `StateSpace::get_input_size`: the column count of `B`. -/
def StateSpace.get_input_size (ss : StateSpace) : ℕ :=
  ss.B.cols

/-- Engine state after `k` calls of `update` with the constant input `u`. -/
def StateSpace.run (ss : StateSpace) (u : Matrix) : ℕ → StateSpace
  | 0 => ss
  | k + 1 => ((ss.run u k).update u).1

/-! ## TF, SS and ZPK blocks (`lti/src/tf.rs`, `ss.rs`, `zpk.rs`) -/

/-- The `Tf` block: statics `numerator`, `denominator`, `x0` and the owned
state-space engine built by `init`. -/
structure Tf where
  procState : StreamingState
  initialized : Bool
  numerator : List ℚ
  denominator : List ℚ
  x0 : List ℚ
  model : StateSpace
deriving DecidableEq, Repr

/-- Left-padding of the numerator in `Tf::init`:
`while numerator.len() < size { numerator.insert(0, 0.0) }`. -/
def Tf.padNum (num : List ℚ) (size : ℕ) : List ℚ :=
  List.replicate (size - num.length) 0 ++ num

/-- `Tf::init`: validates the statics and builds the engine via `from_tf` on
the left-padded numerator.  Note it never calls `set_state(Initial)`: on
success the lifecycle cell is returned unchanged. -/
def Tf.init (b : Tf) : Except StreamingError Tf :=
  if b.procState = StreamingState.Running then
    Except.error StreamingError.InvalidStateTransition
  else if !b.initialized then
    Except.error StreamingError.InvalidStatics
  else if b.denominator.length = 0 ∨ b.denominator.getD 0 0 = 0 then
    Except.error StreamingError.InvalidStatics
  else if b.numerator.length = 0 then
    Except.error StreamingError.InvalidStatics
  else
    Except.ok { b with
      model := StateSpace.from_tf (Tf.padNum b.numerator b.denominator.length)
        b.denominator b.x0 }

/-- Guard of `Tf::run` up to entering the processing loop (unlike `Fir::run`
there is no `is_initialized` check). -/
def Tf.run (b : Tf) : Tf × Except StreamingError Unit :=
  if b.procState = StreamingState.Stopped then
    (b, Except.error StreamingError.InvalidStateTransition)
  else
    ({ b with procState := StreamingState.Running }, Except.ok ())

/-- `Tf::process`: shape the received vector into a column, stop the block and
return `InvalidInput` when its dimension disagrees with the engine's input
size, otherwise advance the engine one step and emit the output column. -/
def Tf.process (b : Tf) (input : List ℚ) : Tf × Except StreamingError (List ℚ) :=
  let u := Matrix.from_vec (input.map (fun v => [v]))
  if u.rows ≠ b.model.get_input_size ∨ u.cols ≠ 1 then
    ({ b with procState := StreamingState.Stopped },
      Except.error StreamingError.InvalidInput)
  else
    let r := b.model.update u
    ({ b with model := r.1 },
      Except.ok (r.2.to_vec.map (fun v => v.getD 0 0)))

/-- The `Ss` block: raw-matrix statics and the owned engine. -/
structure Ss where
  procState : StreamingState
  initialized : Bool
  A : Matrix
  B : Matrix
  C : Matrix
  D : Matrix
  x0 : Matrix
  model : StateSpace
deriving DecidableEq, Repr

/-- `Ss::process`, same step contract as `Tf::process`. -/
def Ss.process (b : Ss) (input : List ℚ) : Ss × Except StreamingError (List ℚ) :=
  let u := Matrix.from_vec (input.map (fun v => [v]))
  if u.rows ≠ b.model.get_input_size ∨ u.cols ≠ 1 then
    ({ b with procState := StreamingState.Stopped },
      Except.error StreamingError.InvalidInput)
  else
    let r := b.model.update u
    ({ b with model := r.1 },
      Except.ok (r.2.to_vec.map (fun v => v.getD 0 0)))

/-- The `Zpk` block: statics `zeros`, `poles`, `gain`, `x0` and the owned
engine. -/
structure Zpk where
  procState : StreamingState
  initialized : Bool
  zeros : List ℚ
  poles : List ℚ
  gain : ℚ
  x0 : List ℚ
  model : StateSpace
deriving DecidableEq, Repr

/-- `Zpk::process`, same step contract as `Tf::process`. -/
def Zpk.process (b : Zpk) (input : List ℚ) : Zpk × Except StreamingError (List ℚ) :=
  let u := Matrix.from_vec (input.map (fun v => [v]))
  if u.rows ≠ b.model.get_input_size ∨ u.cols ≠ 1 then
    ({ b with procState := StreamingState.Stopped },
      Except.error StreamingError.InvalidInput)
  else
    let r := b.model.update u
    ({ b with model := r.1 },
      Except.ok (r.2.to_vec.map (fun v => v.getD 0 0)))

/-! ## FFT core (`transform/src/fft.rs`)

The recursion works on complex samples; the twiddle factors involve
`cos`/`sin`, so this part of the development lives over `ℂ` (with exact real
arithmetic in place of `f64`).  The mixed-radix recursion itself is translated
verbatim, including its treatment of `start`/`step`. -/

/-- Modelled from the spec: `utils::math::numbers::factorize`, the prime
factorization of `n` in ascending order, by trial division (the fuel bounds
the number of division/advance steps and is never exhausted for `fuel ≥ 2n+2`). -/
def factorizeGo : ℕ → ℕ → ℕ → List ℕ
  | 0, _, _ => []
  | fuel + 1, n, d =>
    if n ≤ 1 then []
    else if n % d = 0 then d :: factorizeGo fuel (n / d) d
    else factorizeGo fuel n (d + 1)

/-- Modelled from the spec: prime factorization of `n`. -/
def factorize (n : ℕ) : List ℕ :=
  factorizeGo (2 * n + 2) n 2

/-- The `size == 2` base of `fft_process`:
`[input[0] + input[1], input[0] - input[1]]` — note it reads the head of the
whole received buffer, ignoring `start` and `step`. -/
def fftBase2 (input : List ℂ) : Option (List ℂ) := do
  let a ← input.get? 0
  let b ← input.get? 1
  pure [a + b, a - b]

/-- The chunk-collection loop of `fft_process`: sub-transforms for
`i = 0, …, chunkNumber - 1` in order, any panic propagating. -/
def collectChunks (g : ℕ → Option (List ℂ)) : ℕ → Option (List (List ℂ))
  | 0 => some []
  | n + 1 =>
    match collectChunks g n, g n with
    | some acc, some c => some (acc ++ [c])
    | _, _ => none

/-- Inner accumulation of the combine loop of `fft_process` at output index
`k`: `output[k] += chunks[i][k % chunk_size] * weights[k % chunk_size]` for
`i = 0, …, chunkNumber - 1`; `idx` is `k % chunk_size`. -/
def chunkDot (chunks : List (List ℂ)) (weights : List ℂ) (idx : ℕ) : ℕ → Option ℂ
  | 0 => some 0
  | i + 1 =>
    match chunkDot chunks weights idx i,
        (chunks.get? i).bind (fun c => c.get? idx), weights.get? idx with
    | some acc, some v, some w => some (acc + v * w)
    | _, _, _ => none

/-- Outer combine loop of `fft_process`, producing `output[0], …,
output[size-1]` in order. -/
def combineOut (chunks : List (List ℂ)) (weights : List ℂ)
    (chunkNumber chunkSize : ℕ) : ℕ → Option (List ℂ)
  | 0 => some []
  | k + 1 =>
    match combineOut chunks weights chunkNumber chunkSize k,
        chunkDot chunks weights (k % chunkSize) chunkNumber with
    | some acc, some v => some (acc ++ [v])
    | _, _ => none

/-- `FftCore::fft_process`, with `self.factorization[index_factor..]` passed as
a list (reading past its end panics).  `size == 1` returns the whole received
buffer unchanged and `size == 2` combines its first two entries; both ignore
`start`/`step`, which the recursion only threads through. -/
def fft_process (weights : List ℂ) : List ℕ → List ℂ → ℕ → ℕ → ℕ → Option (List ℂ)
  | [], input, size, _, _ =>
    if size = 1 then some input
    else if size = 2 then fftBase2 input
    else none
  | f :: rest, input, size, start, step =>
    if size = 1 then some input
    else if size = 2 then fftBase2 input
    else
      let chunkSize := size / f
      match collectChunks
          (fun i => fft_process weights rest input chunkSize
            (start + i * step) (step * f)) f with
      | none => none
      | some chunks => combineOut chunks weights f chunkSize size

/-- The FFT plan: twiddle table, prime factorization, size. -/
structure FftCore where
  size : ℕ
  weights : List ℂ
  factorization : List ℕ

/-- `FftCore::new`: `size` twiddles `cos θᵢ + i·sin θᵢ` with
`θᵢ = ±2π·i/size` (`+` for the inverse plan), and the factorization of
`size`. -/
noncomputable def FftCore.new (inverse : Bool) (size : ℕ) : FftCore :=
  ⟨size,
    (List.range size).map (fun i =>
      let angle : ℝ := (if inverse then 2 else -2) * Real.pi * i / size
      ⟨Real.cos angle, Real.sin angle⟩),
    factorize size⟩

/-- `FftCore::fft_real`: embed the real signal, zero-pad to `size`, run the
mixed-radix recursion from the full factorization. -/
def FftCore.fft_real (core : FftCore) (input : List ℝ) : Option (List ℂ) :=
  let cinput : List ℂ := input.map (fun x => (x : ℂ))
  let padded :=
    if cinput.length < core.size then
      cinput ++ List.replicate (core.size - cinput.length) 0
    else cinput
  fft_process core.weights core.factorization padded core.size 0 1

/-! ## Claim theorems -/

/-- A `StateSpace` as built by the block constructors before `init`:
`StateSpace::new` on five `Matrix::new(1,1)` defaults. -/
def defaultModel : StateSpace :=
  StateSpace.new (Matrix.new 1 1) (Matrix.new 1 1) (Matrix.new 1 1)
    (Matrix.new 1 1) (Matrix.new 1 1)

/-- C1: a successful `Tf::init` (statics assigned, denominator `[1,1]` valid)
returns `Ok` but leaves the lifecycle cell at `Null`, not `Initial`:
`Tf::init` (and `Zpk::init`) never calls `set_state(Initial)`. -/
theorem tf_init_success_leaves_lifecycle_null :
    (Tf.init ⟨StreamingState.Null, true, [1], [1, 1], [0], defaultModel⟩).toOption.map
        Tf.procState = some StreamingState.Null ∧
      StreamingState.Null ≠ StreamingState.Initial := by
  constructor
  · unfold Tf.init
    rw [if_neg (fun h => StreamingState.noConfusion h)]
    norm_num [Except.toOption]
  · intro h
    exact StreamingState.noConfusion h

/-- C2: the `Fir` block with `order = 1`, `coefficient = [1, 2]` (so
`len(coefficient) = order + 1` and the history is the zeroed `[0]` produced by
`init`) emits `[1, 0]` for the unit impulse `[1, 0]`, not the coefficient
vector `[1, 2]`: the inner loop `for index in 1..order` never reaches
`coefficient[order]`. -/
theorem fir_process_impulse_not_coefficients :
    Fir.process ⟨StreamingState.Initial, true, 1, [1, 2], [0]⟩ [1, 0]
        = some (⟨StreamingState.Initial, true, 1, [1, 2], [0]⟩, [1, 0]) ∧
      ([1, 0] : List ℚ) ≠ [1, 2] := by
  constructor
  · norm_num [Fir.process, Fir.loop, Fir.innerSum]
  · intro h
    norm_num at h

/-- C3 counterexample: `Fir::run` called on a block in `Running` (statics
assigned) does not return `InvalidStateTransition`; it passes the guard and
enters the processing loop. -/
theorem fir_run_from_running_enters_loop :
    (Fir.run ⟨StreamingState.Running, true, 0, [1], []⟩).2 = Except.ok () ∧
      (⟨StreamingState.Running, true, 0, [1], []⟩ : Fir).procState
        ≠ StreamingState.Initial := by
  constructor
  · rfl
  · intro h
    exact StreamingState.noConfusion h

/-- C3 amended: `run` returns `InvalidStateTransition` exactly when the
lifecycle state is `Stopped`; from `Null`, `Initial` or `Running` the guard
passes (for `Fir` an unassigned-statics block gets `InvalidStatics` instead;
`Tf::run` has no such check) and the block enters the processing loop in
state `Running`. -/
theorem run_invalid_transition_iff_stopped (bF : Fir) (bT : Tf) :
    ((Fir.run bF).2 = Except.error StreamingError.InvalidStateTransition
        ↔ bF.procState = StreamingState.Stopped) ∧
      ((Tf.run bT).2 = Except.error StreamingError.InvalidStateTransition
        ↔ bT.procState = StreamingState.Stopped) := by
  constructor
  · by_cases hS : bF.procState = StreamingState.Stopped
    · simp [Fir.run, hS]
    · by_cases hI : bF.initialized <;> simp [Fir.run, hS, hI]
  · by_cases hS : bT.procState = StreamingState.Stopped <;> simp [Tf.run, hS]

/-- C9: for any `Fir` block with `order ≥ 2` whose statics passed `init`
(`len(coefficient) = order + 1`, history of length `order`), processing any
non-empty input block panics: the first sample (`k = 0`) reads
`input_memory[order - 0]`, one past the end of the length-`order` history. -/
theorem fir_process_oob_for_order_ge_two (s : StreamingState) (ini : Bool)
    (order : ℕ) (c mem input : List ℚ) (h2 : 2 ≤ order)
    (hc : c.length = order + 1) (hm : mem.length = order) (hx : input ≠ []) :
    Fir.process ⟨s, ini, order, c, mem⟩ input = none := by
  obtain ⟨x, rest, rfl⟩ := List.exists_cons_of_ne_nil hx
  obtain ⟨m, hm1⟩ : ∃ m, order - 1 = m + 1 :=
    ⟨order - 2, by omega⟩
  have h0l : 0 < c.length := by omega
  have h1l : 1 < c.length := by omega
  have hv0 := List.getElem?_eq_getElem h0l
  have hv1 := List.getElem?_eq_getElem h1l
  have hint : intGet mem ((order : ℕ) : ℤ) = none := by
    unfold intGet
    rw [if_neg (by omega)]
    have ht : (((order : ℕ) : ℤ)).toNat = order := by omega
    rw [ht, List.get?_eq_getElem?]
    exact List.getElem?_eq_none_iff.mpr (by omega)
  have hsum : Fir.innerSum c mem order 0 = none := by
    unfold Fir.innerSum
    rw [hm1]
    simp only [List.range']
    rw [List.foldlM_cons]
    simp [List.get?_eq_getElem?, hv1, hint]
  simp [Fir.process, Fir.loop, List.get?_eq_getElem?, hv0, hsum]

/-- C9 witness: the out-of-bounds read materialises at `order = 2`,
`coefficient = [1, 2, 3]`, history `[0, 0]`, input `[1]`. -/
theorem fir_process_oob_for_order_ge_two_witness :
    (2 ≤ 2 ∧ ([1, 2, 3] : List ℚ).length = 2 + 1 ∧
        ([0, 0] : List ℚ).length = 2 ∧ ([1] : List ℚ) ≠ []) ∧
      Fir.process ⟨StreamingState.Initial, true, 2, [1, 2, 3], [0, 0]⟩ [1] = none :=
  ⟨⟨by decide, by decide, by decide, by decide⟩,
    fir_process_oob_for_order_ge_two StreamingState.Initial true 2 [1, 2, 3]
      [0, 0] [1] (by decide) (by decide) (by decide) (by decide)⟩

/-- C4: whenever `Tf::process`, `Ss::process` or `Zpk::process` receives an
input vector whose length disagrees with the engine's input size
(`B.cols`), it returns `InvalidInput` and the block is left in `Stopped`
(the body calls `self.stop()` before returning the error). -/
theorem lti_process_dim_mismatch_stops (bT : Tf) (bS : Ss) (bZ : Zpk)
    (uT uS uZ : List ℚ) (hT : uT.length ≠ bT.model.get_input_size)
    (hS : uS.length ≠ bS.model.get_input_size)
    (hZ : uZ.length ≠ bZ.model.get_input_size) :
    Tf.process bT uT = ({ bT with procState := StreamingState.Stopped },
        Except.error StreamingError.InvalidInput) ∧
      Ss.process bS uS = ({ bS with procState := StreamingState.Stopped },
        Except.error StreamingError.InvalidInput) ∧
      Zpk.process bZ uZ = ({ bZ with procState := StreamingState.Stopped },
        Except.error StreamingError.InvalidInput) := by
  refine ⟨?_, ?_, ?_⟩
  · unfold Tf.process
    rw [if_pos (Or.inl (by simpa [Matrix.from_vec] using hT))]
  · unfold Ss.process
    rw [if_pos (Or.inl (by simpa [Matrix.from_vec] using hS))]
  · unfold Zpk.process
    rw [if_pos (Or.inl (by simpa [Matrix.from_vec] using hZ))]

/-- C4 witness: dimension mismatch at the default one-input engines with a
length-2 input. -/
theorem lti_process_dim_mismatch_stops_witness :
    (([1, 2] : List ℚ).length
          ≠ (⟨StreamingState.Initial, true, [1], [1], [0], defaultModel⟩ :
            Tf).model.get_input_size ∧
        ([1, 2] : List ℚ).length
          ≠ (⟨StreamingState.Initial, true, Matrix.new 1 1, Matrix.new 1 1,
            Matrix.new 1 1, Matrix.new 1 1, Matrix.new 1 1, defaultModel⟩ :
            Ss).model.get_input_size ∧
        ([1, 2] : List ℚ).length
          ≠ (⟨StreamingState.Initial, true, [], [0], 1, [0], defaultModel⟩ :
            Zpk).model.get_input_size) ∧
      (Tf.process ⟨StreamingState.Initial, true, [1], [1], [0], defaultModel⟩ [1, 2]
          = (⟨StreamingState.Stopped, true, [1], [1], [0], defaultModel⟩,
            Except.error StreamingError.InvalidInput) ∧
        Ss.process ⟨StreamingState.Initial, true, Matrix.new 1 1, Matrix.new 1 1,
            Matrix.new 1 1, Matrix.new 1 1, Matrix.new 1 1, defaultModel⟩ [1, 2]
          = (⟨StreamingState.Stopped, true, Matrix.new 1 1, Matrix.new 1 1,
              Matrix.new 1 1, Matrix.new 1 1, Matrix.new 1 1, defaultModel⟩,
            Except.error StreamingError.InvalidInput) ∧
        Zpk.process ⟨StreamingState.Initial, true, [], [0], 1, [0], defaultModel⟩ [1, 2]
          = (⟨StreamingState.Stopped, true, [], [0], 1, [0], defaultModel⟩,
            Except.error StreamingError.InvalidInput)) :=
  ⟨⟨by decide, by decide, by decide⟩,
    lti_process_dim_mismatch_stops
      ⟨StreamingState.Initial, true, [1], [1], [0], defaultModel⟩
      ⟨StreamingState.Initial, true, Matrix.new 1 1, Matrix.new 1 1, Matrix.new 1 1,
        Matrix.new 1 1, Matrix.new 1 1, defaultModel⟩
      ⟨StreamingState.Initial, true, [], [0], 1, [0], defaultModel⟩
      [1, 2] [1, 2] [1, 2] (by decide) (by decide) (by decide)⟩

/-- C7: the `MovingAverage` block with `order = 2` emits
`[1, 3/2, 2, 3, 4]` for the input `[1, 2, 3, 4, 5]`, not the centred moving
average `[3/2, 2, 3, 4, 9/2]`: the main loop pushes `value_sum / count`
before folding sample `k` into the window, so every output lags by one
sample. -/
theorem moving_average_order_two_eval :
    MovingAverage.process ⟨StreamingState.Initial, true, 2⟩ [1, 2, 3, 4, 5]
        = some (⟨StreamingState.Initial, true, 2⟩, [1, 3/2, 2, 3, 4]) ∧
      ([1, 3/2, 2, 3, 4] : List ℚ) ≠ [3/2, 2, 3, 4, 9/2] := by
  constructor
  · norm_num [MovingAverage.process, MovingAverage.pre, MovingAverage.step,
      intGet, List.range, List.range.loop, List.foldlM]
  · intro h
    norm_num at h

/-- Window invariant for C8: with `order = 1` each sample replaces the whole
window, the sorted singleton window is itself, and its median is the sample. -/
theorem medianLoop_order_one (input : List ℚ) :
    ∀ w : List ℚ, w.length ≤ 1 → MedianFilter.loop 1 w input = some input := by
  induction input with
  | nil => intro w _; simp [MedianFilter.loop]
  | cons x rest ih =>
    intro w hw
    have hstep : MedianFilter.step 1 w x = some (x, [x]) := by
      match w, hw with
      | [], _ =>
        simp [MedianFilter.step, List.mergeSort_singleton]
      | [a], _ =>
        simp [MedianFilter.step, List.mergeSort_singleton]
    simp [MedianFilter.loop, hstep, ih [x] (by simp)]

/-- C8: the `MedianFilter` block with `order = 1` is the identity on every
received input block. -/
theorem median_filter_order_one_identity (s : StreamingState) (ini : Bool)
    (input : List ℚ) :
    MedianFilter.process ⟨s, ini, 1⟩ input = some (⟨s, ini, 1⟩, input) := by
  simp [MedianFilter.process, medianLoop_order_one input [] (by simp)]

/-- C10: `MedianFilter::process` mutates no block state slot — the sliding
window is a local rebuilt empty on every call — so the block record survives
a call unchanged and processing a block after any successfully processed
history gives exactly the result of processing it fresh. -/
theorem median_process_stateless (b : MedianFilter) (hist x : List ℚ) :
    (MedianFilter.process b hist).map (fun r => MedianFilter.process r.1 x)
        = (MedianFilter.process b hist).map (fun _ => MedianFilter.process b x) ∧
      (MedianFilter.process b hist).map Prod.fst
        = (MedianFilter.process b hist).map (fun _ => b) := by
  unfold MedianFilter.process
  cases MedianFilter.loop b.order [] hist <;> simp

/-- Normal form of the one-pole transfer-function engine built from the
left-padded numerator `[0, 1]` and denominator `[1, -a]`. -/
theorem from_tf_pad_one_pole (a : ℚ) :
    StateSpace.from_tf [0, 1] [1, -a] [0]
      = ⟨⟨1, 1, [[a]]⟩, ⟨1, 1, [[1]]⟩, ⟨1, 1, [[1]]⟩, ⟨1, 1, [[0]]⟩,
        ⟨1, 1, [[0]]⟩⟩ := by
  norm_num [StateSpace.from_tf, Matrix.zero, Matrix.set, Matrix.from_vec,
    List.range, List.range.loop, List.range']

/-- One `update` step of a `1 × 1` engine in closed form. -/
theorem update_one_dim (a b c d x u : ℚ) :
    StateSpace.update
        ⟨⟨1, 1, [[a]]⟩, ⟨1, 1, [[b]]⟩, ⟨1, 1, [[c]]⟩, ⟨1, 1, [[d]]⟩, ⟨1, 1, [[x]]⟩⟩
        ⟨1, 1, [[u]]⟩
      = (⟨⟨1, 1, [[a]]⟩, ⟨1, 1, [[b]]⟩, ⟨1, 1, [[c]]⟩, ⟨1, 1, [[d]]⟩,
          ⟨1, 1, [[a * x + b * u]]⟩⟩,
        ⟨1, 1, [[c * (a * x + b * u) + d * u]]⟩) := by
  norm_num [StateSpace.update, Matrix.mul, Matrix.add, Matrix.entry,
    List.range, List.range.loop]

/-- State reached by the one-pole engine after `k` unit-input steps: the
partial geometric sum `∑_{j<k} aʲ`. -/
theorem run_one_pole_state (a : ℚ) (k : ℕ) :
    (⟨⟨1, 1, [[a]]⟩, ⟨1, 1, [[1]]⟩, ⟨1, 1, [[1]]⟩, ⟨1, 1, [[0]]⟩,
        ⟨1, 1, [[(0 : ℚ)]]⟩⟩ : StateSpace).run ⟨1, 1, [[1]]⟩ k
      = ⟨⟨1, 1, [[a]]⟩, ⟨1, 1, [[1]]⟩, ⟨1, 1, [[1]]⟩, ⟨1, 1, [[0]]⟩,
        ⟨1, 1, [[∑ j ∈ Finset.range k, a ^ j]]⟩⟩ := by
  induction k with
  | zero => simp [StateSpace.run]
  | succ k ih =>
    rw [StateSpace.run, ih, update_one_dim]
    have : a * (∑ j ∈ Finset.range k, a ^ j) + 1 * 1
        = ∑ j ∈ Finset.range (k + 1), a ^ j := by
      rw [geom_sum_succ]; ring
    rw [this]

/-- C5 counterexample: `from_tf` on the unpadded `num = [1]`, `den = [1, -a]`
at `a = 1` leaves `B = 0` (the loop `for k in 1..num.len()` is empty), so the
first unit-step output is `0`, not `∑_{j≤0} 1ʲ = 1`. -/
theorem from_tf_unpadded_unit_step_output_zero :
    (((StateSpace.from_tf [1] [1, -1] [0]).run (Matrix.from_vec [[1]]) 0).update
          (Matrix.from_vec [[1]])).2.entry 0 0 = 0 ∧
      (0 : ℚ) ≠ ∑ j ∈ Finset.range (0 + 1), (1 : ℚ) ^ j := by
  constructor
  · norm_num [StateSpace.from_tf, StateSpace.run, StateSpace.update,
      Matrix.mul, Matrix.add, Matrix.entry, Matrix.zero, Matrix.set,
      Matrix.from_vec, List.range, List.range.loop, List.range']
  · norm_num

/-- C5 amended: with the numerator left-padded to the denominator's length
(`[0, 1]`, exactly what `Tf::init` passes to `from_tf`), the engine driven by
the constant unit input emits `y[k] = ∑_{j=0..k} aʲ` at step `k`. -/
theorem from_tf_padded_unit_step_geom_sum (a : ℚ) (k : ℕ) :
    (((StateSpace.from_tf [0, 1] [1, -a] [0]).run (Matrix.from_vec [[1]]) k).update
          (Matrix.from_vec [[1]])).2.entry 0 0
      = ∑ j ∈ Finset.range (k + 1), a ^ j := by
  have hu : Matrix.from_vec [[(1 : ℚ)]] = ⟨1, 1, [[1]]⟩ := rfl
  rw [hu, from_tf_pad_one_pole, run_one_pole_state, update_one_dim]
  have : a * (∑ j ∈ Finset.range k, a ^ j) + 1 * 1
      = ∑ j ∈ Finset.range (k + 1), a ^ j := by
    rw [geom_sum_succ]; ring
  rw [this]
  norm_num [Matrix.entry]

/-- Size-2 base case of the mixed-radix recursion on the delta buffer: it adds
and subtracts the first two entries of the whole received buffer, whatever
`start`/`step` say. -/
theorem fft_process_delta_size_two (W : List ℂ) (fs : List ℕ) (s t : ℕ) :
    fft_process W fs [1, 0, 0, 0, 0, 0, 0, 0] 2 s t = some [1, 1] := by
  cases fs <;> norm_num [fft_process, fftBase2]

set_option maxHeartbeats 1000000 in
/-- Size-4 stage on the delta buffer: both chunks are the same `[1, 1]`, so
`output[k] = 2 · w[k % 2]`. -/
theorem fft_process_delta_size_four (W : List ℂ) (fs : List ℕ) (w0 w1 : ℂ)
    (hW0 : W[0]? = some w0) (hW1 : W[1]? = some w1) (s t : ℕ) :
    fft_process W (2 :: fs) [1, 0, 0, 0, 0, 0, 0, 0] 4 s t
      = some [w0 + w0, w1 + w1, w0 + w0, w1 + w1] := by
  rw [fft_process]
  norm_num [collectChunks, combineOut, chunkDot, fft_process_delta_size_two,
    hW0, hW1]

set_option maxHeartbeats 2000000 in
/-- Size-8 stage on the delta buffer: both chunks equal the size-4 result, so
`output[k] = 2 · chunk[k % 4] · w[k % 4]`. -/
theorem fft_process_delta_size_eight (W : List ℂ) (fs : List ℕ) (w0 w1 w2 w3 : ℂ)
    (hW0 : W[0]? = some w0) (hW1 : W[1]? = some w1) (hW2 : W[2]? = some w2)
    (hW3 : W[3]? = some w3) :
    fft_process W (2 :: 2 :: fs) [1, 0, 0, 0, 0, 0, 0, 0] 8 0 1
      = some [(w0 + w0) * w0 + (w0 + w0) * w0, (w1 + w1) * w1 + (w1 + w1) * w1,
          (w0 + w0) * w2 + (w0 + w0) * w2, (w1 + w1) * w3 + (w1 + w1) * w3,
          (w0 + w0) * w0 + (w0 + w0) * w0, (w1 + w1) * w1 + (w1 + w1) * w1,
          (w0 + w0) * w2 + (w0 + w0) * w2, (w1 + w1) * w3 + (w1 + w1) * w3] := by
  rw [fft_process]
  norm_num [collectChunks, combineOut, chunkDot,
    fft_process_delta_size_four W fs w0 w1 hW0 hW1, hW0, hW1, hW2, hW3]

set_option maxHeartbeats 2000000 in
/-- C6: the forward `fft_size = 8` plan applied to the real input
`[1,0,0,0,0,0,0,0]` emits `4 + 0i` as its first spectral sample, not `1 + 0i`:
the recursion's base cases read `input[0]`, `input[1]` of the whole buffer
instead of decimating by `start`/`step`, so the transform is not a DFT. -/
theorem fft8_forward_delta_entry_zero_four :
    ((FftCore.new false 8).fft_real [1, 0, 0, 0, 0, 0, 0, 0]).bind
        (fun l => l.get? 0) = some 4 ∧ (4 : ℂ) ≠ 1 := by
  refine ⟨?_, by norm_num⟩
  have hfact : (FftCore.new false 8).factorization = [2, 2, 2] := rfl
  have hsize : (FftCore.new false 8).size = 8 := rfl
  have hW0 : ((FftCore.new false 8).weights)[0]? = some 1 := by
    norm_num [FftCore.new, List.range, List.range.loop, Complex.ext_iff]
  have h8 := fft_process_delta_size_eight (FftCore.new false 8).weights [2]
    1 _ _ _ hW0 rfl rfl rfl
  norm_num [FftCore.fft_real, hfact, hsize, h8, Complex.ofReal_one,
    Complex.ofReal_zero]

end SignalProc
